import Mathlib

/- Verification development for the AutoPR refactoring agent: a shallow
   embedding of src/app.py and src/llmprovider.py, with theorems settling
   the specification's claims about response cleanup, the provider
   adapters, retry behaviour, the code-smell filter, batch collection,
   the workflow control flow and the provider registry. -/

namespace AutoPR

/-- Python str.strip modelled on lists of characters: remove leading and
trailing whitespace, as the .strip() calls in src/llmprovider.py and
src/app.py do. -/
def pyStrip (s : List Char) : List Char :=
  ((s.dropWhile Char.isWhitespace).reverse.dropWhile Char.isWhitespace).reverse

/-- Python str.startswith on character lists. -/
def pyStartsWith (s pat : List Char) : Bool :=
  pat.isPrefixOf s

/-- Python str.endswith on character lists. -/
def pyEndsWith (s pat : List Char) : Bool :=
  pat.reverse.isPrefixOf s.reverse

/-- The opening fence marker together with its language tag that
_clean_response tests for (src/llmprovider.py line 33); it has nine
characters, matching the slice [9:] on line 34. -/
def fencePython : List Char := "```python".data

/-- The closing fence marker tested on src/llmprovider.py line 35; it has
three characters, matching the slice [:-3] on line 36. -/
def fenceClose : List Char := "```".data

/-- First conditional of _clean_response (src/llmprovider.py lines 33-34):
when the stripped text starts with the python fence marker, the text is
replaced by the stripped text with its first nine characters dropped. -/
def cleanFenceOpen (s : List Char) : List Char :=
  if pyStartsWith (pyStrip s) fencePython then (pyStrip s).drop 9 else s

/-- Second conditional of _clean_response (src/llmprovider.py lines 35-36):
when the stripped text ends with a closing fence marker, the text is
replaced by the stripped text with its last three characters removed. -/
def cleanFenceClose (s : List Char) : List Char :=
  if pyEndsWith (pyStrip s) fenceClose then
    (pyStrip s).take ((pyStrip s).length - 3)
  else s

/-- _clean_response from src/llmprovider.py lines 31-37 on character lists:
the two fence-stripping conditionals followed by the final strip of line 37.
The identical inline cleanup of src/app.py lines 115-119 is the same
function. -/
def cleanResponseL (s : List Char) : List Char :=
  pyStrip (cleanFenceClose (cleanFenceOpen s))

/-- _clean_response as a function on strings. -/
def clean_response (s : String) : String :=
  String.mk (cleanResponseL s.data)

example : cleanResponseL "foo``````".data = "foo```".data := by decide

example : cleanResponseL "foo```".data = "foo".data := by decide

example : cleanResponseL "```python\nfoo\n```".data = "foo".data := by decide

example : cleanResponseL "```js\nfoo\n```".data = "```js\nfoo".data := by decide

/-- Dropping with the same predicate twice drops nothing new. -/
theorem dropWhile_dropWhile_eq {α} (p : α → Bool) (l : List α) :
    (l.dropWhile p).dropWhile p = l.dropWhile p := by
  induction l with
  | nil => rfl
  | cons a as ih =>
    cases hpa : p a
    · simp [List.dropWhile_cons, hpa]
    · simp [List.dropWhile_cons, hpa, ih]

/-- dropWhile returns a suffix of its argument. -/
theorem dropWhile_suffix_ex {α} (p : α → Bool) (l : List α) :
    ∃ w, w ++ l.dropWhile p = l := by
  induction l with
  | nil => exact ⟨[], rfl⟩
  | cons a as ih =>
    cases hpa : p a
    · exact ⟨[], by simp [List.dropWhile_cons, hpa]⟩
    · obtain ⟨w, hw⟩ := ih
      exact ⟨a :: w, by simp [List.dropWhile_cons, hpa, hw]⟩

/-- Appending a list whose dropWhile is trivial distributes over dropWhile. -/
theorem dropWhile_append_fix {α} (p : α → Bool) (l₁ l₂ : List α)
    (h : l₂.dropWhile p = l₂) :
    (l₁ ++ l₂).dropWhile p = l₁.dropWhile p ++ l₂ := by
  induction l₁ with
  | nil => simpa using h
  | cons a as ih =>
    cases hpa : p a
    · simp [List.dropWhile_cons, hpa]
    · simp [List.dropWhile_cons, hpa, ih]

/-- If a list has no leading p-elements, then removing its trailing
p-elements leaves a list with no leading p-elements either. -/
theorem stripped_head_fix {α} (p : α → Bool) (l : List α)
    (hl : l.dropWhile p = l) :
    ((l.reverse.dropWhile p).reverse).dropWhile p = (l.reverse.dropWhile p).reverse := by
  obtain ⟨w, hw⟩ := dropWhile_suffix_ex p l.reverse
  cases hu : (l.reverse.dropWhile p).reverse with
  | nil => simp
  | cons b bs =>
    have hl2 : (l.reverse.dropWhile p).reverse ++ w.reverse = l := by
      have hrev := congrArg List.reverse hw
      simpa [List.reverse_append] using hrev
    have hbl : l = b :: (bs ++ w.reverse) := by
      rw [← hl2, hu]
      simp
    have hpb : p b = false := by
      cases hpbc : p b
      · rfl
      · exfalso
        rw [hbl, List.dropWhile_cons_of_pos hpbc] at hl
        have hle := (List.dropWhile_sublist (l := bs ++ w.reverse) p).length_le
        rw [hl] at hle
        simp only [List.length_cons] at hle
        omega
    exact List.dropWhile_cons_of_neg (by simp [hpb])

/-- The reverse of pyStrip exposes the trailing-side dropWhile. -/
theorem pyStrip_rev (s : List Char) :
    (pyStrip s).reverse
      = (s.dropWhile Char.isWhitespace).reverse.dropWhile Char.isWhitespace := by
  unfold pyStrip
  rw [List.reverse_reverse]

/-- Stripping is idempotent. -/
theorem pyStrip_idem (s : List Char) : pyStrip (pyStrip s) = pyStrip s := by
  have h1 : (pyStrip s).dropWhile Char.isWhitespace = pyStrip s :=
    stripped_head_fix Char.isWhitespace (s.dropWhile Char.isWhitespace)
      (dropWhile_dropWhile_eq Char.isWhitespace s)
  have h2 : (pyStrip s).reverse.dropWhile Char.isWhitespace = (pyStrip s).reverse := by
    rw [pyStrip_rev, dropWhile_dropWhile_eq]
  calc pyStrip (pyStrip s)
      = (((pyStrip s).dropWhile Char.isWhitespace).reverse.dropWhile
          Char.isWhitespace).reverse := rfl
    _ = ((pyStrip s).reverse.dropWhile Char.isWhitespace).reverse := by rw [h1]
    _ = (pyStrip s).reverse.reverse := by rw [h2]
    _ = pyStrip s := List.reverse_reverse _

/-- Cleanup output is already stripped. -/
theorem pyStrip_cleanResponseL (x : List Char) :
    pyStrip (cleanResponseL x) = cleanResponseL x := by
  unfold cleanResponseL
  exact pyStrip_idem _

/-- C2 counterexample: the cleanup function is not idempotent. On the
input foo`````` (six trailing backticks) one pass yields foo``` and a
second pass strips again, yielding foo. -/
theorem C2_counterexample :
    cleanResponseL (cleanResponseL "foo``````".data)
      ≠ cleanResponseL "foo``````".data := by
  decide

/-- C2 (amended): the cleanup function is idempotent at every input whose
cleaned result does not itself start with the python-tagged opening fence
marker and does not end with a closing fence marker. -/
theorem C2_amended (x : List Char)
    (h1 : pyStartsWith (cleanResponseL x) fencePython = false)
    (h2 : pyEndsWith (cleanResponseL x) fenceClose = false) :
    cleanResponseL (cleanResponseL x) = cleanResponseL x := by
  have hstrip := pyStrip_cleanResponseL x
  have e1 : cleanFenceOpen (cleanResponseL x) = cleanResponseL x := by
    unfold cleanFenceOpen
    rw [hstrip, h1]
    simp
  have e2 : cleanFenceClose (cleanResponseL x) = cleanResponseL x := by
    unfold cleanFenceClose
    rw [hstrip, h2]
    simp
  calc cleanResponseL (cleanResponseL x)
      = pyStrip (cleanFenceClose (cleanFenceOpen (cleanResponseL x))) := rfl
    _ = pyStrip (cleanResponseL x) := by rw [e1, e2]
    _ = cleanResponseL x := hstrip

/-- C2 witness: the amended idempotence applied at a concrete input. -/
theorem C2_witness :
    cleanResponseL (cleanResponseL "```python hi```".data)
      = cleanResponseL "```python hi```".data :=
  C2_amended ("```python hi```".data) (by decide) (by decide)

/-- The closing fence reversed, as an explicit character list. -/
theorem fenceClose_rev : fenceClose.reverse = ['`', '`', '`'] := by decide

/-- A list is a Boolean prefix of itself followed by anything. -/
theorem isPrefixOf_append_self {α} [BEq α] [LawfulBEq α] (l t : List α) :
    l.isPrefixOf (l ++ t) = true := by
  induction l with
  | nil => simp [List.isPrefixOf]
  | cons a as ih => simp [List.isPrefixOf, ih]

/-- Stripping leaves a python-fenced input untouched: both ends are
backticks, not whitespace. -/
theorem pyStrip_fenced (interior : List Char) :
    pyStrip (fencePython ++ interior ++ fenceClose)
      = fencePython ++ interior ++ fenceClose := by
  have hA : (fencePython ++ interior ++ fenceClose).dropWhile Char.isWhitespace
      = fencePython ++ interior ++ fenceClose :=
    List.dropWhile_cons_of_neg (by decide)
  have hArev : ((fencePython ++ interior ++ fenceClose).reverse).dropWhile
        Char.isWhitespace
      = (fencePython ++ interior ++ fenceClose).reverse := by
    rw [List.reverse_append, fenceClose_rev]
    simp only [List.cons_append]
    exact List.dropWhile_cons_of_neg (by decide)
  unfold pyStrip
  rw [hA, hArev, List.reverse_reverse]

/-- The first cleanup conditional on a python-fenced input drops exactly
the nine marker characters. -/
theorem cleanFenceOpen_fenced (interior : List Char) :
    cleanFenceOpen (fencePython ++ interior ++ fenceClose)
      = interior ++ fenceClose := by
  have hsw : pyStartsWith (fencePython ++ interior ++ fenceClose) fencePython
      = true := by
    unfold pyStartsWith
    rw [List.append_assoc]
    exact isPrefixOf_append_self _ _
  unfold cleanFenceOpen
  rw [pyStrip_fenced, if_pos hsw, List.append_assoc]
  exact List.drop_left' (by decide)

/-- Stripping a list that ends in the closing fence strips only on the
left. -/
theorem pyStrip_append_fenceClose (l : List Char) :
    pyStrip (l ++ fenceClose) = l.dropWhile Char.isWhitespace ++ fenceClose := by
  unfold pyStrip
  rw [dropWhile_append_fix Char.isWhitespace l fenceClose (by decide)]
  have hrev : ((l.dropWhile Char.isWhitespace ++ fenceClose).reverse).dropWhile
        Char.isWhitespace
      = (l.dropWhile Char.isWhitespace ++ fenceClose).reverse := by
    rw [List.reverse_append, fenceClose_rev]
    simp only [List.cons_append]
    exact List.dropWhile_cons_of_neg (by decide)
  rw [hrev, List.reverse_reverse]

/-- The second cleanup conditional on a list ending in the closing fence
drops exactly the three marker characters (after left-stripping). -/
theorem cleanFenceClose_fenced (interior : List Char) :
    cleanFenceClose (interior ++ fenceClose)
      = interior.dropWhile Char.isWhitespace := by
  have hew : pyEndsWith
      (interior.dropWhile Char.isWhitespace ++ fenceClose) fenceClose = true := by
    unfold pyEndsWith
    rw [List.reverse_append, fenceClose_rev]
    exact isPrefixOf_append_self _ _
  unfold cleanFenceClose
  rw [pyStrip_append_fenceClose, if_pos hew]
  have hlen : (interior.dropWhile Char.isWhitespace ++ fenceClose).length - 3
      = (interior.dropWhile Char.isWhitespace).length := by
    rw [List.length_append]
    have hC : fenceClose.length = 3 := by decide
    rw [hC]
    omega
  rw [hlen]
  exact List.take_left _ _

/-- Stripping ignores an initial left-side dropWhile. -/
theorem pyStrip_dropWhile (l : List Char) :
    pyStrip (l.dropWhile Char.isWhitespace) = pyStrip l := by
  unfold pyStrip
  rw [dropWhile_dropWhile_eq]

/-- C3 counterexample: a fence tagged with a language other than python is
not fully removed; on an input with a js tag the cleanup keeps the opening
marker and its tag while still removing the closing marker, so the result
is not the re-trimmed interior content. -/
theorem C3_counterexample :
    cleanResponseL "```js\nfoo\n```".data = "```js\nfoo".data ∧
    cleanResponseL "```js\nfoo\n```".data ≠ pyStrip "\nfoo\n".data := by
  decide

/-- C3 (amended): for every text wrapped in a python-tagged fence — the
opening marker immediately followed by the python tag at the start and a
closing marker at the end — the cleanup removes exactly the two markers
and the tag, and only re-trims the surrounding whitespace of the interior
content. -/
theorem C3_amended (interior : List Char) :
    cleanResponseL (fencePython ++ interior ++ fenceClose) = pyStrip interior := by
  unfold cleanResponseL
  rw [cleanFenceOpen_fenced, cleanFenceClose_fenced, pyStrip_dropWhile]

/-- C3 witness: the amended removal law at a concrete python-fenced input. -/
theorem C3_witness :
    cleanResponseL (fencePython ++ "\nx = 1\n".data ++ fenceClose)
      = pyStrip "\nx = 1\n".data :=
  C3_amended ("\nx = 1\n".data)

/-- Outcome of one transport interaction inside refactor_file_content
(src/app.py lines 106-125): a 200 response from which a candidate text was
extracted, a 200 response whose JSON has no (or an empty) candidates list,
a non-200 status, or a raised exception (connection failure, JSON parse or
key error — anything caught by the except clause). -/
inductive TransportOutcome where
  | success (text : String)
  | noCandidates
  | httpError
  | exn
deriving DecidableEq

/-- Observable result of the retry loop: how many attempts were made, the
backoff sleeps performed in order (in time units), and the returned
string. -/
structure RetryOutcome where
  attemptsMade : Nat
  sleeps : List Nat
  result : String
deriving DecidableEq

/-- The retry loop of refactor_file_content (src/app.py lines 104-128):
attempt is the loop index and remaining the attempts left of max_retries;
sleeps accumulates the backoff sleeps in reverse order. On a 200 response
with candidates the extracted text is cleaned and returned (lines
109-119); on a 200 response without candidates the original content is
returned at once (lines 111-113); on a non-200 status the loop logs and
continues with no sleep (lines 120-122); on an exception the loop sleeps
2 ^ attempt and continues (lines 123-125). With the attempts exhausted the
original content is returned (line 128). -/
def refactorAttempts (transport : Nat → TransportOutcome) (file_content : String) :
    Nat → Nat → List Nat → RetryOutcome
  | attempt, 0, sleeps => ⟨attempt, sleeps.reverse, file_content⟩
  | attempt, remaining + 1, sleeps =>
    match transport attempt with
    | .success text => ⟨attempt + 1, sleeps.reverse, clean_response text⟩
    | .noCandidates => ⟨attempt + 1, sleeps.reverse, file_content⟩
    | .httpError => refactorAttempts transport file_content (attempt + 1) remaining sleeps
    | .exn =>
      refactorAttempts transport file_content (attempt + 1) remaining
        (2 ^ attempt :: sleeps)

/-- refactor_file_content (src/app.py lines 81-128): the retry loop run
with max_retries = 3, starting at attempt 0 with no sleeps performed. -/
def refactor_file_content (transport : Nat → TransportOutcome)
    (file_content : String) : RetryOutcome :=
  refactorAttempts transport file_content 0 3 []

example :
    refactor_file_content (fun _ => TransportOutcome.exn) "orig"
      = ⟨3, [1, 2, 4], "orig"⟩ := by decide

example :
    refactor_file_content (fun _ => TransportOutcome.httpError) "orig"
      = ⟨3, [], "orig"⟩ := by decide

example :
    refactor_file_content (fun _ => TransportOutcome.noCandidates) "orig"
      = ⟨1, [], "orig"⟩ := by decide

/-- C1 counterexample: it is not the case that every all-failing transport
leads to exactly 3 attempts — a 200 response whose JSON carries no
candidates (a null/failure result) makes the function return the original
content immediately after a single attempt, with no sleeps at all. -/
theorem C1_counterexample :
    ¬ (∀ (transport : Nat → TransportOutcome) (content : String),
        (∀ i text, transport i ≠ TransportOutcome.success text) →
        (refactor_file_content transport content).attemptsMade = 3) := by
  intro h
  have h1 := h (fun _ => TransportOutcome.noCandidates) "orig"
    (fun i text hc => TransportOutcome.noConfusion hc)
  exact absurd h1 (by decide)

/-- C1 (amended): when every attempt fails with a non-200 status or an
exception, the retry loop makes exactly 3 attempts and then returns the
original content unchanged; it sleeps 2 ^ i exactly after each attempt i
that raised — so the sleeps are strictly increasing — and does not sleep
after a non-200 status. When an attempt returns 200 with a null or empty
candidates list, the loop instead returns the original content at once
after that single attempt, with no sleep. -/
theorem C1_amended (transport : Nat → TransportOutcome) (content : String) :
    ((∀ i, i < 3 → transport i = TransportOutcome.httpError ∨
        transport i = TransportOutcome.exn) →
      (refactor_file_content transport content).attemptsMade = 3 ∧
      (refactor_file_content transport content).result = content ∧
      (refactor_file_content transport content).sleeps =
        (if transport 0 = TransportOutcome.exn then [2 ^ 0] else []) ++
        (if transport 1 = TransportOutcome.exn then [2 ^ 1] else []) ++
        (if transport 2 = TransportOutcome.exn then [2 ^ 2] else []) ∧
      List.Chain' (· < ·) (refactor_file_content transport content).sleeps) ∧
    (transport 0 = TransportOutcome.noCandidates →
      refactor_file_content transport content = ⟨1, [], content⟩) := by
  constructor
  · intro h
    rcases h 0 (by omega) with h0 | h0 <;> rcases h 1 (by omega) with h1 | h1 <;>
      rcases h 2 (by omega) with h2 | h2 <;>
      simp [refactor_file_content, refactorAttempts, h0, h1, h2]
  · intro h0
    simp [refactor_file_content, refactorAttempts, h0]

/-- C1 witness: the amended retry law at a transport that raises on every
attempt — 3 attempts, strictly increasing sleeps 1, 2, 4, original
content returned. -/
theorem C1_witness :
    (refactor_file_content (fun _ => TransportOutcome.exn) "x").attemptsMade = 3 ∧
    (refactor_file_content (fun _ => TransportOutcome.exn) "x").result = "x" ∧
    (refactor_file_content (fun _ => TransportOutcome.exn) "x").sleeps = [1, 2, 4] := by
  have h := (C1_amended (fun _ => TransportOutcome.exn) "x").1
    (fun i hi => Or.inr rfl)
  refine ⟨h.1, h.2.1, ?_⟩
  rw [h.2.2.1]
  decide

/-- JSON values, as returned by the transport helper _make_request
(src/llmprovider.py lines 17-29) after parsing a response body. -/
inductive Json where
  | null
  | bool (b : Bool)
  | str (s : String)
  | num (n : Int)
  | arr (elems : List Json)
  | obj (fields : List (String × Json))

/-- Python truthiness of a JSON value: None, False, empty string, zero and
empty containers are falsy. -/
def truthy : Json → Bool
  | .null => false
  | .bool b => b
  | .str s => s != ""
  | .num n => n != 0
  | .arr elems => !elems.isEmpty
  | .obj fields => !fields.isEmpty

/-- Result of evaluating a fragment of Python code: a value, or a raised
exception (KeyError, IndexError, TypeError, AttributeError). -/
inductive PyResult (α : Type) where
  | ok (a : α)
  | exn
deriving DecidableEq

/-- Sequencing of Python evaluation: an exception propagates. -/
def PyResult.bind {α β : Type} : PyResult α → (α → PyResult β) → PyResult β
  | .exn, _ => .exn
  | .ok a, f => f a

/-- result.get(key): on a dict, the value, or None when the key is absent;
on any other receiver Python raises AttributeError. -/
def pyGet (j : Json) (key : String) : PyResult Json :=
  match j with
  | .obj fields =>
    match fields.find? (fun f => f.1 == key) with
    | some f => .ok f.2
    | none => .ok .null
  | _ => .exn

/-- result[key]: dict subscription; KeyError when the key is absent; the
adapters only subscript JSON objects on their extraction paths, so any
other receiver is modelled as raising. -/
def pySubscript (j : Json) (key : String) : PyResult Json :=
  match j with
  | .obj fields =>
    match fields.find? (fun f => f.1 == key) with
    | some f => .ok f.2
    | none => .exn
  | _ => .exn

/-- result[i]: sequence indexing of a JSON array; IndexError when out of
range; the adapters only index JSON arrays on their extraction paths, so
any other receiver is modelled as raising. -/
def pyIndex (j : Json) (i : Nat) : PyResult Json :=
  match j with
  | .arr elems =>
    match elems.get? i with
    | some v => .ok v
    | none => .exn
  | _ => .exn

/-- Handing a JSON value to _clean_response: the .strip() calls raise on
anything but a string. -/
def pyText (j : Json) : PyResult String :=
  match j with
  | .str s => .ok s
  | _ => .exn

/-- refactor_with_gemini, src/llmprovider.py lines 41-51, modelled at the
extraction boundary: building the request and awaiting _make_request are
external I/O, so the adapter is parametrized by the transport's result
(None on failure, or the parsed JSON body). The guard is the line 49 test
if result and result.get of candidates; on success the extraction chain of
line 50 runs and the text is cleaned; otherwise line 51 returns the
original file content. -/
def refactor_with_gemini (result : Option Json) (file_content : String) :
    PyResult String :=
  match result with
  | none => .ok file_content
  | some j =>
    if truthy j then
      PyResult.bind (pyGet j "candidates") fun cand =>
        if truthy cand then
          PyResult.bind (pySubscript j "candidates") fun cs =>
          PyResult.bind (pyIndex cs 0) fun c0 =>
          PyResult.bind (pySubscript c0 "content") fun ct =>
          PyResult.bind (pySubscript ct "parts") fun ps =>
          PyResult.bind (pyIndex ps 0) fun p0 =>
          PyResult.bind (pySubscript p0 "text") fun tj =>
          PyResult.bind (pyText tj) fun text =>
          .ok (clean_response text)
        else .ok file_content
    else .ok file_content

/-- refactor_with_openai, src/llmprovider.py lines 53-64: guard on the
choices field, extraction through choices, index 0, message, content. -/
def refactor_with_openai (result : Option Json) (file_content : String) :
    PyResult String :=
  match result with
  | none => .ok file_content
  | some j =>
    if truthy j then
      PyResult.bind (pyGet j "choices") fun cand =>
        if truthy cand then
          PyResult.bind (pySubscript j "choices") fun cs =>
          PyResult.bind (pyIndex cs 0) fun c0 =>
          PyResult.bind (pySubscript c0 "message") fun msg =>
          PyResult.bind (pySubscript msg "content") fun ct =>
          PyResult.bind (pyText ct) fun text =>
          .ok (clean_response text)
        else .ok file_content
    else .ok file_content

/-- refactor_with_anthropic, src/llmprovider.py lines 66-78: guard on the
content field, extraction through content, index 0, text. -/
def refactor_with_anthropic (result : Option Json) (file_content : String) :
    PyResult String :=
  match result with
  | none => .ok file_content
  | some j =>
    if truthy j then
      PyResult.bind (pyGet j "content") fun cand =>
        if truthy cand then
          PyResult.bind (pySubscript j "content") fun cs =>
          PyResult.bind (pyIndex cs 0) fun c0 =>
          PyResult.bind (pySubscript c0 "text") fun tj =>
          PyResult.bind (pyText tj) fun text =>
          .ok (clean_response text)
        else .ok file_content
    else .ok file_content

/-- refactor_with_deepseek, src/llmprovider.py lines 80-91: same response
shape as the OpenAI adapter — guard on choices, extraction through
choices, index 0, message, content. -/
def refactor_with_deepseek (result : Option Json) (file_content : String) :
    PyResult String :=
  match result with
  | none => .ok file_content
  | some j =>
    if truthy j then
      PyResult.bind (pyGet j "choices") fun cand =>
        if truthy cand then
          PyResult.bind (pySubscript j "choices") fun cs =>
          PyResult.bind (pyIndex cs 0) fun c0 =>
          PyResult.bind (pySubscript c0 "message") fun msg =>
          PyResult.bind (pySubscript msg "content") fun ct =>
          PyResult.bind (pyText ct) fun text =>
          .ok (clean_response text)
        else .ok file_content
    else .ok file_content

example :
    refactor_with_gemini
      (some (Json.obj [("candidates", Json.arr [Json.obj [("content",
        Json.obj [("parts", Json.arr [Json.obj [("text",
          Json.str "```python\nx\n```")]])])]])]))
      "orig" = PyResult.ok "x" := by decide

/-- C4 counterexample: a 200 response whose JSON has a non-empty
candidates list but no content field inside the candidate — an expected
field of the extraction path is absent — makes the Gemini adapter raise a
KeyError instead of returning the original content. -/
theorem C4_counterexample :
    refactor_with_gemini
      (some (Json.obj [("candidates", Json.arr [Json.obj [("wrong", Json.null)]])]))
      "orig" = PyResult.exn := by
  decide

/-- C4 (amended): for each of the four adapters, if the transport helper
returns null, or the response is a JSON object from which the guarded
top-level field (candidates for Gemini, choices for OpenAI and DeepSeek,
content for Anthropic) is absent, the adapter returns the original file
content unchanged; when the guarded field is present and non-empty but an
inner field of the extraction path is absent, the adapter raises
instead. -/
theorem C4_amended (fields : List (String × Json)) (content : String) :
    (refactor_with_gemini none content = .ok content ∧
     refactor_with_openai none content = .ok content ∧
     refactor_with_anthropic none content = .ok content ∧
     refactor_with_deepseek none content = .ok content) ∧
    ((fields.find? (fun f => f.1 == "candidates") = none →
        refactor_with_gemini (some (Json.obj fields)) content = .ok content) ∧
     (fields.find? (fun f => f.1 == "choices") = none →
        refactor_with_openai (some (Json.obj fields)) content = .ok content) ∧
     (fields.find? (fun f => f.1 == "content") = none →
        refactor_with_anthropic (some (Json.obj fields)) content = .ok content) ∧
     (fields.find? (fun f => f.1 == "choices") = none →
        refactor_with_deepseek (some (Json.obj fields)) content = .ok content)) := by
  refine ⟨⟨rfl, rfl, rfl, rfl⟩, ?_, ?_, ?_, ?_⟩ <;> intro h
  · simp [refactor_with_gemini, pyGet, truthy, PyResult.bind, h]
  · simp [refactor_with_openai, pyGet, truthy, PyResult.bind, h]
  · simp [refactor_with_anthropic, pyGet, truthy, PyResult.bind, h]
  · simp [refactor_with_deepseek, pyGet, truthy, PyResult.bind, h]

/-- C4 witness: the amended no-op law at the empty JSON object, for all
four adapters. -/
theorem C4_witness :
    refactor_with_gemini (some (Json.obj [])) "c" = .ok "c" ∧
    refactor_with_openai (some (Json.obj [])) "c" = .ok "c" ∧
    refactor_with_anthropic (some (Json.obj [])) "c" = .ok "c" ∧
    refactor_with_deepseek (some (Json.obj [])) "c" = .ok "c" :=
  ⟨(C4_amended [] "c").2.1 rfl, (C4_amended [] "c").2.2.1 rfl,
   (C4_amended [] "c").2.2.2.1 rfl, (C4_amended [] "c").2.2.2.2 rfl⟩

/-- One entry of the provider registry (src/llmprovider.py lines 94-99): the
adapter function and the name of the environment variable holding the
credential. -/
structure ProviderEntry where
  function : Option Json → String → PyResult String
  api_key_name : String

/-- MODEL_PROVIDERS from src/llmprovider.py lines 94-99: the static
registry mapping provider identifiers to their adapter and credential
name. -/
def MODEL_PROVIDERS : List (String × ProviderEntry) :=
  [("gemini", ⟨refactor_with_gemini, "GEMINI_API_KEY"⟩),
   ("openai", ⟨refactor_with_openai, "OPENAI_API_KEY"⟩),
   ("claude", ⟨refactor_with_anthropic, "ANTHROPIC_API_KEY"⟩),
   ("deepseek", ⟨refactor_with_deepseek, "DEEPSEEK_API_KEY"⟩)]

/-- Dictionary lookup in the registry: the entry when the key is present,
None (a KeyError in Python terms) otherwise. -/
def lookupProvider (name : String) : Option ProviderEntry :=
  (MODEL_PROVIDERS.find? (fun e => e.1 == name)).map (fun e => e.2)

/-- C10: the registry holds exactly the four keys gemini, openai, claude
and deepseek, each mapping to that provider's adapter function and
credential variable name; the Anthropic adapter is reachable only under
the key claude, and looking up anthropic (or any key other than those
four) yields a key-not-found result. -/
theorem C10_registry :
    MODEL_PROVIDERS.map Prod.fst = ["gemini", "openai", "claude", "deepseek"] ∧
    lookupProvider "gemini" = some ⟨refactor_with_gemini, "GEMINI_API_KEY"⟩ ∧
    lookupProvider "openai" = some ⟨refactor_with_openai, "OPENAI_API_KEY"⟩ ∧
    lookupProvider "claude" = some ⟨refactor_with_anthropic, "ANTHROPIC_API_KEY"⟩ ∧
    lookupProvider "deepseek" = some ⟨refactor_with_deepseek, "DEEPSEEK_API_KEY"⟩ ∧
    lookupProvider "anthropic" = none ∧
    (∀ name, (lookupProvider name).isSome = true →
      name ∈ ["gemini", "openai", "claude", "deepseek"]) := by
  refine ⟨rfl, rfl, rfl, rfl, rfl, rfl, ?_⟩
  intro name h
  unfold lookupProvider at h
  cases hfind : MODEL_PROVIDERS.find? (fun e => e.1 == name) with
  | none => rw [hfind] at h; simp at h
  | some e =>
    have hbeq := List.find?_some hfind
    have hname : e.1 = name := by simpa using hbeq
    have hmem := List.mem_of_find?_eq_some hfind
    rw [← hname]
    simp only [ MODEL_PROVIDERS, List.mem_cons, List.not_mem_nil, or_false] at hmem
    rcases hmem with rfl | rfl | rfl | rfl <;> simp

/-- C10 witness: the closed-key law applied at the key gemini. -/
theorem C10_witness : "gemini" ∈ ["gemini", "openai", "claude", "deepseek"] :=
  C10_registry.2.2.2.2.2.2 "gemini" rfl

/-- Python file iteration: the lines of a text, each keeping its
terminating newline, with a final fragment that lacks a newline counted as
its own line. The generator on src/app.py line 71 counts exactly these
lines. -/
def pyLines : List Char → List (List Char)
  | [] => []
  | c :: rest =>
    if c = '\n' then ['\n'] :: pyLines rest
    else
      match pyLines rest with
      | [] => [[c]]
      | l :: ls => (c :: l) :: ls

example : pyLines "a\nb".data = ["a\n".data, "b".data] := by decide

example : pyLines "a\nb\n".data = ["a\n".data, "b\n".data] := by decide

example : (pyLines "".data).length = 0 := by decide

/-- analyze_for_code_smells (src/app.py lines 67-79) for a readable file
given its content, and for an unreadable file (the except branch of lines
77-79, which logs and returns False): a readable file smells exactly when
its line count strictly exceeds min_lines (line 73), whose default in the
source is 50. -/
def analyze_for_code_smells (content : Option (List Char)) (min_lines : Nat) :
    Bool :=
  match content with
  | none => false
  | some s => decide (min_lines < (pyLines s).length)

/-- C6: the smell filter includes a readable file exactly when its line
count strictly exceeds the threshold; a file with at most threshold lines
— in particular exactly threshold lines — is excluded, and an unreadable
file is excluded. -/
theorem C6_smell_filter (content : List Char) (min_lines : Nat) :
    (analyze_for_code_smells (some content) min_lines = true ↔
      min_lines < (pyLines content).length) ∧
    (analyze_for_code_smells (some content) min_lines = false ↔
      (pyLines content).length ≤ min_lines) ∧
    ((pyLines content).length = min_lines →
      analyze_for_code_smells (some content) min_lines = false) ∧
    analyze_for_code_smells none min_lines = false := by
  refine ⟨?_, ?_, ?_, rfl⟩
  · simp [analyze_for_code_smells]
  · simp [analyze_for_code_smells]
  · intro hb
    simp [analyze_for_code_smells]
    omega

/-- C6 witness: the filter law applied at a two-line file with threshold 2
(the boundary, excluded) and at a three-line file with threshold 2
(included). -/
theorem C6_witness :
    analyze_for_code_smells (some "a\nb".data) 2 = false ∧
    analyze_for_code_smells (some "a\nb\nc".data) 2 = true :=
  ⟨(C6_smell_filter "a\nb".data 2).2.1.mpr (by decide),
   (C6_smell_filter "a\nb\nc".data 2).1.mpr (by decide)⟩

/-- process_file (src/app.py lines 210-228), parametrized by the outcome
of reading the file (None when opening or reading raised — the except
branch of lines 226-228 — otherwise the original content read on lines
214-215) and by the refactor call viewed as a function of the original
content. The returned pair carries the refactored content when it differs
from the original (lines 219-221) and None otherwise (lines 222-224). -/
def process_file (file_path : String) (readResult : Option String)
    (refactor : String → String) : String × Option String :=
  match readResult with
  | none => (file_path, none)
  | some original_content =>
    if refactor original_content ≠ original_content then
      (file_path, some (refactor original_content))
    else (file_path, none)

/-- The path component of a process_file result is the given path. -/
theorem process_file_fst (p : String) (rr : Option String)
    (rf : String → String) : (process_file p rr rf).1 = p := by
  unfold process_file
  cases rr with
  | none => rfl
  | some o =>
    show (if rf o ≠ o then (p, some (rf o)) else (p, none)).1 = p
    split
    · rfl
    · rfl

/-- Python dict assignment d[k] = v on a dict modelled as an association
list: replace the value when the key is present, append otherwise. -/
def dictSet (d : List (String × String)) (k v : String) :
    List (String × String) :=
  if d.any (fun kv => kv.1 == k) then
    d.map (fun kv => if kv.1 == k then (k, v) else kv)
  else d ++ [(k, v)]

/-- Every element after a dict assignment is an old element or the new
pair. -/
theorem dictSet_mem {d : List (String × String)} {k v : String}
    {x : String × String} (hx : x ∈ dictSet d k v) : x ∈ d ∨ x = (k, v) := by
  unfold dictSet at hx
  by_cases h : d.any (fun kv => kv.1 == k) = true
  · rw [if_pos h] at hx
    obtain ⟨kv, hkv, hmap⟩ := List.mem_map.mp hx
    by_cases hk : (kv.1 == k) = true
    · right
      rw [if_pos hk] at hmap
      exact hmap.symm
    · left
      rw [if_neg hk] at hmap
      rw [← hmap]
      exact hkv
  · rw [if_neg h] at hx
    rcases List.mem_append.mp hx with h1 | h1
    · exact Or.inl h1
    · exact Or.inr (by simpa using h1)

/-- The body of the Collect loop of run (src/app.py lines 200-202): a
result's content is added to the refactored_files dict when it is truthy —
a non-None, non-empty string — and skipped otherwise. -/
def collectStep (acc : List (String × String)) (r : String × Option String) :
    List (String × String) :=
  match r.2 with
  | some content => if content != "" then dictSet acc r.1 content else acc
  | none => acc

/-- The Collect loop of run (src/app.py lines 199-202): fold the step over
the gathered results, starting from the empty dict of line 191. -/
def collectRefactored (results : List (String × Option String)) :
    List (String × String) :=
  results.foldl collectStep []

/-- Dispatch and Collect composed (src/app.py lines 193-202): one
process_file task per flagged file — a path paired with its read outcome —
results gathered in order, then collected. -/
def dispatchAndCollect (files : List (String × Option String))
    (refactor : String → String) : List (String × String) :=
  collectRefactored (files.map (fun f => process_file f.1 f.2 refactor))

/-- Invariant propagation through the Collect fold: any property that
holds of every truthy result pair holds of every collected entry. -/
theorem foldl_collectStep_inv (P : String × String → Prop) :
    ∀ (results : List (String × Option String)) (acc : List (String × String)),
      (∀ x ∈ acc, P x) →
      (∀ r ∈ results, ∀ c, r.2 = some c → c ≠ "" → P (r.1, c)) →
      ∀ x ∈ results.foldl collectStep acc, P x := by
  intro results
  induction results with
  | nil =>
    intro acc hacc _ x hx
    rw [List.foldl_nil] at hx
    exact hacc x hx
  | cons r rs ih =>
    intro acc hacc hres x hx
    rw [List.foldl_cons] at hx
    have hstep : ∀ y ∈ collectStep acc r, P y := by
      unfold collectStep
      cases hr2 : r.2 with
      | none => exact hacc
      | some c =>
        show ∀ y ∈ (if c != "" then dictSet acc r.1 c else acc), P y
        by_cases hc : (c != "") = true
        · rw [if_pos hc]
          intro y hy
          rcases dictSet_mem hy with h1 | h1
          · exact hacc y h1
          · rw [h1]
            exact hres r (List.mem_cons_self r rs) c hr2 (by simpa using hc)
        · rw [if_neg hc]
          exact hacc
    exact ih (collectStep acc r) hstep
      (fun r' h' => hres r' (List.mem_cons_of_mem r h')) x hx

/-- When every gathered result carries None, the Collect loop builds the
empty dict. -/
theorem collectRefactored_all_none :
    ∀ results : List (String × Option String),
      (∀ r ∈ results, r.2 = none) → collectRefactored results = [] := by
  intro results
  induction results with
  | nil => intro _; rfl
  | cons r rs ih =>
    intro hres
    have hr : r.2 = none := hres r (List.mem_cons_self r rs)
    unfold collectRefactored
    rw [List.foldl_cons]
    show List.foldl collectStep (collectStep [] r) rs = []
    rw [show collectStep [] r = [] from by unfold collectStep; rw [hr]]
    exact ih (fun r' h' => hres r' (List.mem_cons_of_mem r h'))

/-- process_file on a readable file, as an equation on the branching. -/
theorem process_file_some (p o : String) (rf : String → String) :
    process_file p (some o) rf
      = if rf o ≠ o then (p, some (rf o)) else (p, none) := rfl

/-- C5: a per-file refactor result with non-None content always differs
from the file's original content, and consequently every entry of the
collected RefactorBatch carries a non-empty content that differs from the
originating file's original content. -/
theorem C5_batch_invariant (files : List (String × Option String))
    (refactor : String → String) :
    (∀ p o r, (process_file p (some o) refactor).2 = some r → r ≠ o) ∧
    (∀ x ∈ dispatchAndCollect files refactor,
      x.2 ≠ "" ∧ ∃ o, (x.1, some o) ∈ files ∧ x.2 ≠ o) := by
  constructor
  · intro p o r h
    by_cases hne : refactor o ≠ o
    · rw [process_file_some, if_pos hne] at h
      have h2 : some (refactor o) = some r := h
      injection h2 with h3
      rw [← h3]
      exact hne
    · rw [process_file_some, if_neg hne] at h
      exact Option.noConfusion (show (none : Option String) = some r from h)
  · intro x hx
    unfold dispatchAndCollect collectRefactored at hx
    refine foldl_collectStep_inv
      (fun x => x.2 ≠ "" ∧ ∃ o, (x.1, some o) ∈ files ∧ x.2 ≠ o)
      _ [] (by simp) ?_ x hx
    intro r hr c hc hcne
    obtain ⟨f, hf, rfl⟩ := List.mem_map.mp hr
    refine ⟨hcne, ?_⟩
    rw [process_file_fst]
    cases hf2 : f.2 with
    | none =>
      rw [hf2] at hc
      exact Option.noConfusion (show (none : Option String) = some c from hc)
    | some o =>
      rw [hf2] at hc
      by_cases hne : refactor o ≠ o
      · rw [process_file_some, if_pos hne] at hc
        have h2 : some (refactor o) = some c := hc
        injection h2 with h3
        refine ⟨o, ?_, ?_⟩
        · rw [show ((f.1, some o) : String × Option String) = f from by
            rw [← hf2]]
          exact hf
        · show c ≠ o
          rw [← h3]
          exact hne
      · rw [process_file_some, if_neg hne] at hc
        exact Option.noConfusion (show (none : Option String) = some c from hc)

/-- C5 witness: the batch invariant at a concrete one-file run whose
refactor call changes the content. -/
theorem C5_witness :
    (("a.py", "new") : String × String).2 ≠ "" ∧
    ∃ o, (("a.py", some o) : String × Option String)
        ∈ [(("a.py" : String), some "old")] ∧
      (("a.py", "new") : String × String).2 ≠ o :=
  (C5_batch_invariant [("a.py", some "old")] (fun _ => "new")).2
    ("a.py", "new") (by decide)

/-- C9: a refactor call that returns the empty string on a non-empty
original yields a result pair with content some empty-string — which
differs from the original — yet the Collect loop excludes it from the
batch, because inclusion requires truthiness: a non-None and non-empty
content. No collected entry ever carries the empty string. -/
theorem C9_empty_string_excluded (p original : String) (h : original ≠ "") :
    (process_file p (some original) (fun _ => "")).2 = some "" ∧
    collectRefactored [process_file p (some original) (fun _ => "")] = [] ∧
    (∀ results, ∀ x ∈ collectRefactored results, x.2 ≠ "") := by
  have hpf : process_file p (some original) (fun _ => "") = (p, some "") := by
    unfold process_file
    show (if ("" : String) ≠ original then (p, some "") else (p, none))
      = (p, some "")
    rw [if_pos (Ne.symm h)]
  refine ⟨by rw [hpf], by rw [hpf]; rfl, ?_⟩
  intro results x hx
  exact foldl_collectStep_inv (fun x => x.2 ≠ "") results [] (by simp)
    (fun r hr c hc hcne => hcne) x hx

/-- C9 witness: the exclusion law at a concrete file whose refactor call
returns the empty string. -/
theorem C9_witness :
    (process_file "a.py" (some "x") (fun _ => "")).2 = some "" ∧
    collectRefactored [process_file "a.py" (some "x") (fun _ => "")] = [] :=
  ⟨(C9_empty_string_excluded "a.py" "x" (by decide)).1,
   (C9_empty_string_excluded "a.py" "x" (by decide)).2.1⟩

/-- The workflow steps of run (src/app.py lines 186-208), in the order the
method performs them: Acquire is clone_repository, Discover is
find_python_files, filterStep is the smell-filter loop of lines 194-197,
dispatch is awaiting the gathered process_file tasks, publish is
create_pull_request, cleanup is the finally-block call of line 208. -/
inductive Step where
  | acquire
  | discover
  | filterStep
  | dispatch
  | publish
  | cleanup
deriving DecidableEq

/-- Failure behaviour of one run (src/app.py lines 186-208): whether
clone_repository raises (line 189 — clone errors are re-raised on line
53), whether find_python_files raises (line 190), whether awaiting the
gathered tasks raises (line 199), and whether the collected
refactored_files dict ends up non-empty (line 204). create_pull_request
catches its own exceptions (lines 172-175), so the Publish step never
raises out of run. -/
structure RunBehavior where
  cloneFails : Bool
  findFails : Bool
  gatherFails : Bool
  batchNonempty : Bool

/-- run (src/app.py lines 186-208): the try block performs Acquire,
Discover, the smell Filter, Dispatch/Collect and — only when the batch is
non-empty — Publish, stopping at the first step that raises; the finally
block appends Cleanup on every exit path. The Boolean records whether the
run re-raised an exception. -/
def runSteps (b : RunBehavior) : List Step × Bool :=
  let body : List Step × Bool :=
    if b.cloneFails then ([Step.acquire], true)
    else if b.findFails then ([Step.acquire, Step.discover], true)
    else if b.gatherFails then
      ([Step.acquire, Step.discover, Step.filterStep, Step.dispatch], true)
    else if b.batchNonempty then
      ([Step.acquire, Step.discover, Step.filterStep, Step.dispatch,
        Step.publish], false)
    else ([Step.acquire, Step.discover, Step.filterStep, Step.dispatch], false)
  (body.1 ++ [Step.cleanup], body.2)

/-- Remote actions performed by create_pull_request (src/app.py lines
130-175). -/
inductive GhAction where
  | deleteBranch
  | createBranch
  | updateFile (path : String)
  | openPR
deriving DecidableEq

/-- create_pull_request (src/app.py lines 130-175) as the list of remote
actions it performs: an empty refactored_files dict returns at once with
no action (lines 132-134); otherwise the existing suggestion branch is
deleted when present (lines 141-146), the branch is recreated (line 148),
each file is updated (lines 151-158), and the pull request is opened
(line 169). -/
def create_pull_request (branchExists : Bool)
    (refactored_files : List (String × String)) : List GhAction :=
  if refactored_files.isEmpty then []
  else
    (if branchExists then [GhAction.deleteBranch] else []) ++
    [GhAction.createBranch] ++
    refactored_files.map (fun f => GhAction.updateFile f.1) ++
    [GhAction.openPR]

/-- C7: for every failure behaviour, the Cleanup step appears exactly once
in the run's trace; in particular, when the Acquire step fails, Discover,
Filter and Dispatch never run but Cleanup still executes, immediately
after the failed Acquire. -/
theorem C7_cleanup_always (b : RunBehavior) :
    (runSteps b).1.count Step.cleanup = 1 ∧
    (b.cloneFails = true →
      (runSteps b).1 = [Step.acquire, Step.cleanup] ∧
      Step.discover ∉ (runSteps b).1 ∧
      Step.filterStep ∉ (runSteps b).1 ∧
      Step.dispatch ∉ (runSteps b).1) := by
  rcases b with ⟨c, f, g, n⟩
  cases c <;> cases f <;> cases g <;> cases n <;> exact ⟨by decide, by decide⟩

/-- C7 witness: the cleanup law at a run whose Acquire step fails. -/
theorem C7_witness :
    (runSteps ⟨true, false, false, false⟩).1 = [Step.acquire, Step.cleanup] ∧
    (runSteps ⟨true, false, false, false⟩).1.count Step.cleanup = 1 :=
  ⟨((C7_cleanup_always ⟨true, false, false, false⟩).2 rfl).1,
   (C7_cleanup_always ⟨true, false, false, false⟩).1⟩

/-- C8: in a run that reaches Collect with an empty batch, the Publish
step is skipped, the run does not raise, and create_pull_request invoked
on an empty dict performs no remote action — no branch deletion or
creation, no file update, no pull request; moreover a Dispatch round in
which every task returns None content collects the empty batch. -/
theorem C8_empty_batch_skips_publish (b : RunBehavior)
    (h1 : b.cloneFails = false) (h2 : b.findFails = false)
    (h3 : b.gatherFails = false) (h4 : b.batchNonempty = false) :
    (runSteps b).1 = [Step.acquire, Step.discover, Step.filterStep,
      Step.dispatch, Step.cleanup] ∧
    Step.publish ∉ (runSteps b).1 ∧
    (runSteps b).2 = false ∧
    (∀ branchExists, create_pull_request branchExists [] = []) ∧
    (∀ results, (∀ r ∈ results, r.2 = none) → collectRefactored results = []) := by
  rcases b with ⟨c, f, g, n⟩
  cases h1
  cases h2
  cases h3
  cases h4
  refine ⟨rfl, by decide, rfl, ?_, collectRefactored_all_none⟩
  intro branchExists
  cases branchExists <;> rfl

/-- C8 witness: the skip law at a concrete run with an empty batch. -/
theorem C8_witness :
    Step.publish ∉ (runSteps ⟨false, false, false, false⟩).1 ∧
    (runSteps ⟨false, false, false, false⟩).2 = false ∧
    create_pull_request true [] = [] :=
  ⟨(C8_empty_batch_skips_publish ⟨false, false, false, false⟩
      rfl rfl rfl rfl).2.1,
   (C8_empty_batch_skips_publish ⟨false, false, false, false⟩
      rfl rfl rfl rfl).2.2.1,
   (C8_empty_batch_skips_publish ⟨false, false, false, false⟩
      rfl rfl rfl rfl).2.2.2.1 true⟩

end AutoPR
